import Mathlib

/-!
Verification of the budget-calc dashboard (src/budget.py).

The embedding models the session Record Store (st.session_state.income_sources
and st.session_state.expenses) and the aggregation logic computed on every
rerun: total_income, total_expenses, remaining_balance (lines 109-111), the
50/30/20 allocations (lines 226-228), the budget-analysis tiers (lines
264-292), the expense-ratio display (lines 295-302), and the two priority
group-by displays (tab1 text at lines 152-155, tab2 bar chart at lines
178-183).  Monetary amounts are modelled as rationals.
-/

namespace Budget

/-- Priority options of the select slider (line 85): Low, Medium, High, Critical. -/
inductive Priority
  | low
  | medium
  | high
  | critical
  deriving DecidableEq

/-- An income record appended by the Add Income handler (lines 57-60). -/
structure IncomeEntry where
  name : String
  amount : ℚ
  deriving DecidableEq

/-- An expense record appended by the Add Expense handler (lines 89-94). -/
structure ExpenseEntry where
  category : String
  name : String
  amount : ℚ
  priority : Priority
  deriving DecidableEq

/-- The session Record Store: both collections of st.session_state. -/
structure BudgetState where
  income_sources : List IncomeEntry
  expenses : List ExpenseEntry
  deriving DecidableEq

/-- Initial session state (lines 38-41): both collections empty. -/
def initialState : BudgetState := ⟨[], []⟩

/-- Add Income button handler (lines 55-62): appends only when the name is
truthy (non-empty) and the amount is strictly positive; otherwise nothing
happens. -/
def addIncome (s : BudgetState) (name : String) (amount : ℚ) : BudgetState :=
  if name ≠ "" ∧ 0 < amount then
    ⟨s.income_sources ++ [⟨name, amount⟩], s.expenses⟩
  else s

/-- Add Expense button handler (lines 87-96): appends only when the name is
truthy (non-empty) and the amount is strictly positive; otherwise nothing
happens. -/
def addExpense (s : BudgetState) (category : String) (name : String) (amount : ℚ)
    (priority : Priority) : BudgetState :=
  if name ≠ "" ∧ 0 < amount then
    ⟨s.income_sources, s.expenses ++ [⟨category, name, amount, priority⟩]⟩
  else s

/-- Clear All Data button handler (lines 100-103): resets both collections. -/
def clearAll (_ : BudgetState) : BudgetState := ⟨[], []⟩

/-- Line 109: total_income = sum of income amounts. -/
def total_income (s : BudgetState) : ℚ :=
  (s.income_sources.map IncomeEntry.amount).sum

/-- Line 110: total_expenses = sum of expense amounts. -/
def total_expenses (s : BudgetState) : ℚ :=
  (s.expenses.map ExpenseEntry.amount).sum

/-- Line 111: remaining_balance = total_income - total_expenses. -/
def remaining_balance (s : BudgetState) : ℚ :=
  total_income s - total_expenses s

/-- The user actions that mutate the Record Store through the sidebar. -/
inductive Op
  | income (name : String) (amount : ℚ)
  | expense (category : String) (name : String) (amount : ℚ) (priority : Priority)
  deriving DecidableEq

/-- Apply one sidebar action to the store. -/
def applyOp (s : BudgetState) : Op → BudgetState
  | .income n a => addIncome s n a
  | .expense c n a p => addExpense s c n a p

/-- Run a sequence of sidebar actions from a given state. -/
def runOps (s : BudgetState) (ops : List Op) : BudgetState :=
  ops.foldl applyOp s

/-- An action passes the input-boundary validation (non-empty name, positive
amount), hence its append actually happens. -/
def opValid : Op → Prop
  | .income n a => n ≠ "" ∧ 0 < a
  | .expense _ n a _ => n ≠ "" ∧ 0 < a

/-- The income amounts submitted by a sequence of actions. -/
def opIncomeAmounts : List Op → List ℚ
  | [] => []
  | .income _ a :: rest => a :: opIncomeAmounts rest
  | .expense _ _ _ _ :: rest => opIncomeAmounts rest

/-- The expense amounts submitted by a sequence of actions. -/
def opExpenseAmounts : List Op → List ℚ
  | [] => []
  | .income _ _ :: rest => opExpenseAmounts rest
  | .expense _ _ a _ :: rest => a :: opExpenseAmounts rest

/-- States reachable in a session: the initial empty store, followed by any
sequence of Add Income, Add Expense and Clear All Data interactions. -/
inductive Reachable : BudgetState → Prop
  | init : Reachable initialState
  | stepIncome {s : BudgetState} (n : String) (a : ℚ) :
      Reachable s → Reachable (addIncome s n a)
  | stepExpense {s : BudgetState} (c n : String) (a : ℚ) (p : Priority) :
      Reachable s → Reachable (addExpense s c n a p)
  | stepClear {s : BudgetState} : Reachable s → Reachable (clearAll s)

/-- Line 226: needs_budget = total_income * 0.50. -/
def needs_budget (s : BudgetState) : ℚ := total_income s * 0.50

/-- Line 227: wants_budget = total_income * 0.30. -/
def wants_budget (s : BudgetState) : ℚ := total_income s * 0.30

/-- Line 228: savings_budget = total_income * 0.20. -/
def savings_budget (s : BudgetState) : ℚ := total_income s * 0.20

/-- The 50/30/20 allocation triple shown in the Recommendations tab. -/
structure Allocation where
  needs : ℚ
  wants : ℚ
  savings : ℚ
  deriving DecidableEq

/-- The Recommendations tab computes the 50/30/20 allocation only inside the
`total_income > 0` branch (lines 224-228); otherwise it falls to the `else`
branch at lines 303-304. -/
def budgetRule502030 (s : BudgetState) : Option Allocation :=
  if 0 < total_income s then
    some ⟨needs_budget s, wants_budget s, savings_budget s⟩
  else none

/-- Whether the add-income-first guidance of lines 303-304 is shown in place
of the recommendations (the `else` of `if total_income > 0`). -/
def addIncomePrompt (s : BudgetState) : Bool := !decide (0 < total_income s)

/-- The three outcomes of the Your Budget Analysis block (lines 264-292). -/
inductive Assessment
  | deficit (shortfall : ℚ)
  | lowSavings (remaining : ℚ) (target : ℚ)
  | healthy (remaining : ℚ)
  deriving DecidableEq

/-- Your Budget Analysis tier selection (lines 224 and 264-292): inside the
`total_income > 0` branch, an if/elif/else on remaining_balance against 0 and
savings_budget; no assessment otherwise. -/
def healthAssessment (s : BudgetState) : Option Assessment :=
  if 0 < total_income s then
    if remaining_balance s < 0 then some (.deficit |remaining_balance s|)
    else if remaining_balance s < savings_budget s then
      some (.lowSavings (remaining_balance s) (savings_budget s))
    else some (.healthy (remaining_balance s))
  else none

/-- Line 296: the expense percentage of income. -/
def expensePercent (s : BudgetState) : ℚ :=
  total_expenses s / total_income s * 100

/-- The qualitative note of lines 299-302. -/
inductive SpendingNote
  | highSpending
  | healthySpending
  deriving DecidableEq

/-- Lines 299-302: warning above 80, success at 50 or below, nothing between. -/
def noteFor (r : ℚ) : Option SpendingNote :=
  if 80 < r then some .highSpending
  else if r ≤ 50 then some .healthySpending
  else none

/-- The expense-ratio block (lines 295-302): it lives inside the
`total_income > 0` branch and is itself guarded by `total_expenses > 0`, so a
ratio (with its optional note) is displayed only when both totals are
positive. -/
def expenseRatioDisplay (s : BudgetState) : Option (ℚ × Option SpendingNote) :=
  if 0 < total_income s then
    if 0 < total_expenses s then
      some (expensePercent s, noteFor (expensePercent s))
    else none
  else none

/-- Rank realising the fixed display ordering Critical, High, Medium, Low of
line 179 (`priority_order`). -/
def priorityRank : Priority → Nat
  | .critical => 0
  | .high => 1
  | .medium => 2
  | .low => 3

/-- pandas `groupby` sorts group keys; for the four stored label strings the
alphabetical order is Critical, High, Low, Medium. -/
def groupbyPriorityKeys : List Priority := [.critical, .high, .low, .medium]

/-- Sum of amounts of the expenses with a given priority (one groupby cell). -/
def prioritySum (es : List ExpenseEntry) (p : Priority) : ℚ :=
  ((es.filter fun e => decide (e.priority = p)).map ExpenseEntry.amount).sum

/-- The groupby-priority result: one row per priority present among the
expenses, keyed in pandas groupby key order, valued by the amount sum. -/
def priorityRows (es : List ExpenseEntry) : List (Priority × ℚ) :=
  (groupbyPriorityKeys.filter fun p => es.any fun e => decide (e.priority = p)).map
    fun p => (p, prioritySum es p)

/-- Insert into a list sorted by the boolean comparator, keeping earlier
elements first on ties. -/
def insertLe {α : Type} (le : α → α → Bool) (x : α) : List α → List α
  | [] => [x]
  | y :: ys => if le x y then x :: y :: ys else y :: insertLe le x ys

/-- Insertion sort by a boolean comparator. -/
def insertionSort {α : Type} (le : α → α → Bool) (l : List α) : List α :=
  l.foldr (insertLe le) []

/-- The tab1 text summary (line 152): the groupby-priority rows sorted by
amount, descending (`sort_values(ascending=False)`). -/
def tab1PriorityRows (es : List ExpenseEntry) : List (Priority × ℚ) :=
  insertionSort (fun a b => decide (b.2 ≤ a.2)) (priorityRows es)

/-- The tab2 bar chart (lines 178-183): the groupby-priority rows sorted by
the fixed categorical order Critical, High, Medium, Low. -/
def tab2PriorityRows (es : List ExpenseEntry) : List (Priority × ℚ) :=
  insertionSort (fun a b => decide (priorityRank a.1 ≤ priorityRank b.1)) (priorityRows es)

/-- A row list is ordered Critical, High, Medium, Low when consecutive ranks
never decrease. -/
abbrev rowsPriorityOrdered (l : List (Priority × ℚ)) : Prop :=
  l.Chain' fun a b => priorityRank a.1 ≤ priorityRank b.1

/-- A row list is ordered by amount, descending. -/
abbrev rowsAmountDescending (l : List (Priority × ℚ)) : Prop :=
  l.Chain' fun a b => b.2 ≤ a.2

/-- The categories present among the expenses, first occurrence order
(the groupby on line 169 has one row per distinct category). -/
def categoriesPresent (es : List ExpenseEntry) : List String :=
  (es.map ExpenseEntry.category).dedup

/-- Sum of amounts of the expenses in a given category (line 169). -/
def categorySum (es : List ExpenseEntry) (c : String) : ℚ :=
  ((es.filter fun e => decide (e.category = c)).map ExpenseEntry.amount).sum

/-- Every stored entry was validated at the boundary: positive amount and
non-empty name. -/
def GoodEntries (s : BudgetState) : Prop :=
  (∀ e ∈ s.income_sources, 0 < e.amount ∧ e.name ≠ "") ∧
  (∀ e ∈ s.expenses, 0 < e.amount ∧ e.name ≠ "")

instance decOpValid : DecidablePred opValid := fun op =>
  match op with
  | .income n a => inferInstanceAs (Decidable (n ≠ "" ∧ 0 < a))
  | .expense _ n a _ => inferInstanceAs (Decidable (n ≠ "" ∧ 0 < a))

/-- Example store from the spec: Salary 5000; Rent 1500 Critical and
Groceries 400 High. -/
def exampleFull : BudgetState :=
  ⟨[⟨"Salary", 5000⟩],
   [⟨"Housing (Rent/Mortgage)", "Rent", 1500, Priority.critical⟩,
    ⟨"Food & Groceries", "Groceries", 400, Priority.high⟩]⟩

/-- Example action sequence producing the store above. -/
def exampleOps : List Op :=
  [.income "Salary" 5000,
   .expense "Housing (Rent/Mortgage)" "Rent" 1500 Priority.critical,
   .expense "Food & Groceries" "Groceries" 400 Priority.high]

/-- Example store from the spec with a deficit: Salary 1000, Misc 1200. -/
def exampleDeficit : BudgetState :=
  addExpense (addIncome initialState "Salary" 1000) "Other" "Misc" 1200 Priority.low

/-- Example store with income but no expenses. -/
def exampleIncomeOnly : BudgetState := addIncome initialState "Salary" 100

/-- Example expense list whose largest amount has the lowest priority. -/
def exampleLowBig : List ExpenseEntry :=
  [⟨"Other", "Gym", 100, Priority.low⟩, ⟨"Other", "Rent", 50, Priority.critical⟩]

theorem sum_map_ite_eq {K : Type} [DecidableEq K] (cs : List K) (hnd : cs.Nodup)
    (a : K) (v : ℚ) (ha : a ∈ cs) :
    (cs.map fun c => if a = c then v else 0).sum = v := by
  induction cs with
  | nil => cases ha
  | cons c rest ih =>
    rcases List.mem_cons.mp ha with rfl | hmem
    · have hz : (rest.map fun c => if a = c then v else 0).sum = 0 := by
        apply List.sum_eq_zero
        intro x hx
        rcases List.mem_map.mp hx with ⟨c', hc', rfl⟩
        have hne : a ≠ c' := by
          intro hac
          exact (List.nodup_cons.mp hnd).1 (hac ▸ hc')
        simp [hne]
      simp [hz]
    · have hne : a ≠ c := by
        intro hac
        subst hac
        exact (List.nodup_cons.mp hnd).1 hmem
      simp [hne, ih (List.nodup_cons.mp hnd).2 hmem]

theorem sum_map_key_partition {E K : Type} [DecidableEq K] (k : E → K) (amt : E → ℚ)
    (cs : List K) (hnd : cs.Nodup) (es : List E) (hcov : ∀ e ∈ es, k e ∈ cs) :
    (cs.map fun c => ((es.filter fun e => decide (k e = c)).map amt).sum).sum
      = (es.map amt).sum := by
  induction es with
  | nil => simp
  | cons e rest ih =>
    have hcov' : ∀ x ∈ rest, k x ∈ cs := fun x hx => hcov x (List.mem_cons_of_mem _ hx)
    have hstep : (cs.map fun c =>
          ((List.filter (fun x => decide (k x = c)) (e :: rest)).map amt).sum)
        = cs.map fun c => (if k e = c then amt e else 0)
            + ((rest.filter fun x => decide (k x = c)).map amt).sum := by
      apply List.map_congr_left
      intro c _
      by_cases h : k e = c
      · simp [List.filter_cons, h]
      · simp [List.filter_cons, h]
    rw [hstep, List.sum_map_add,
      sum_map_ite_eq cs hnd (k e) (amt e) (hcov e (List.mem_cons_self e rest)), ih hcov']
    simp

theorem sum_map_filter_of_zero {K : Type} (q : K → Bool) (f : K → ℚ) (cs : List K)
    (h0 : ∀ c ∈ cs, q c = false → f c = 0) :
    ((cs.filter q).map f).sum = (cs.map f).sum := by
  induction cs with
  | nil => rfl
  | cons c rest ih =>
    have h0' : ∀ x ∈ rest, q x = false → f x = 0 :=
      fun x hx => h0 x (List.mem_cons_of_mem _ hx)
    by_cases hq : q c = true
    · simp [List.filter_cons, hq, ih h0']
    · have hqf : q c = false := by simpa using hq
      have hc0 : f c = 0 := h0 c (List.mem_cons_self c rest) hqf
      simp [List.filter_cons, hqf, ih h0', hc0]

theorem prioritySum_eq_zero_of_absent (es : List ExpenseEntry) (p : Priority)
    (h : (es.any fun e => decide (e.priority = p)) = false) :
    prioritySum es p = 0 := by
  have hnil : es.filter (fun e => decide (e.priority = p)) = [] := by
    rw [List.filter_eq_nil_iff]
    intro e he
    exact (List.any_eq_false.mp h) e he
  simp [prioritySum, hnil]

theorem chain'_insertLe {α : Type} (le : α → α → Bool)
    (htot : ∀ a b, le a b = true ∨ le b a = true) (x : α) (l : List α)
    (hl : l.Chain' fun a b => le a b = true) :
    (insertLe le x l).Chain' fun a b => le a b = true := by
  induction l with
  | nil => simp [insertLe]
  | cons y ys ih =>
    rw [insertLe]
    by_cases h : le x y = true
    · rw [if_pos h]
      exact List.chain'_cons.mpr ⟨h, hl⟩
    · rw [if_neg h]
      have hyx : le y x = true := (htot x y).resolve_left h
      have hys : ys.Chain' fun a b => le a b = true := hl.tail
      apply List.chain'_cons'.mpr
      refine ⟨?_, ih hys⟩
      intro b hb
      cases ys with
      | nil =>
        simp [insertLe] at hb
        subst hb
        exact hyx
      | cons z zs =>
        rw [insertLe] at hb
        by_cases hz : le x z = true
        · rw [if_pos hz] at hb
          simp at hb
          subst hb
          exact hyx
        · rw [if_neg hz] at hb
          simp at hb
          subst hb
          exact (List.chain'_cons.mp hl).1

theorem chain'_insertionSort {α : Type} (le : α → α → Bool)
    (htot : ∀ a b, le a b = true ∨ le b a = true) (l : List α) :
    (insertionSort le l).Chain' fun a b => le a b = true := by
  induction l with
  | nil => simp [insertionSort]
  | cons x xs ih => exact chain'_insertLe le htot x (insertionSort le xs) ih

theorem runOps_totals (ops : List Op) :
    ∀ s : BudgetState, (∀ op ∈ ops, opValid op) →
      total_income (runOps s ops) = total_income s + (opIncomeAmounts ops).sum ∧
      total_expenses (runOps s ops) = total_expenses s + (opExpenseAmounts ops).sum := by
  induction ops with
  | nil =>
    intro s _
    simp [runOps, opIncomeAmounts, opExpenseAmounts]
  | cons op rest ih =>
    intro s h
    have hop := h op (List.mem_cons_self op rest)
    have hrest : ∀ o ∈ rest, opValid o := fun o ho => h o (List.mem_cons_of_mem _ ho)
    have hrun : runOps s (op :: rest) = runOps (applyOp s op) rest := rfl
    cases op with
    | income n a =>
      have hv : n ≠ "" ∧ 0 < a := hop
      have happ : applyOp s (.income n a) = ⟨s.income_sources ++ [⟨n, a⟩], s.expenses⟩ := by
        show addIncome s n a = _
        unfold addIncome
        rw [if_pos hv]
      obtain ⟨ih1, ih2⟩ := ih (applyOp s (.income n a)) hrest
      constructor
      · rw [hrun, ih1, happ]
        simp [total_income, opIncomeAmounts]
        ring
      · rw [hrun, ih2, happ]
        simp [total_expenses, opExpenseAmounts]
    | expense c n a p =>
      have hv : n ≠ "" ∧ 0 < a := hop
      have happ : applyOp s (.expense c n a p)
          = ⟨s.income_sources, s.expenses ++ [⟨c, n, a, p⟩]⟩ := by
        show addExpense s c n a p = _
        unfold addExpense
        rw [if_pos hv]
      obtain ⟨ih1, ih2⟩ := ih (applyOp s (.expense c n a p)) hrest
      constructor
      · rw [hrun, ih1, happ]
        simp [total_income, opIncomeAmounts]
      · rw [hrun, ih2, happ]
        simp [total_expenses, opExpenseAmounts]
        ring

theorem good_of_reachable {s : BudgetState} (h : Reachable s) : GoodEntries s := by
  induction h with
  | init =>
    constructor
    · intro e he
      cases he
    · intro e he
      cases he
  | stepIncome n a hr ih =>
    unfold addIncome
    by_cases hc : n ≠ "" ∧ 0 < a
    · rw [if_pos hc]
      refine ⟨?_, ih.2⟩
      intro e he
      rcases List.mem_append.mp he with h1 | h2
      · exact ih.1 e h1
      · simp at h2
        subst h2
        exact ⟨hc.2, hc.1⟩
    · rw [if_neg hc]
      exact ih
  | stepExpense c n a p hr ih =>
    unfold addExpense
    by_cases hc : n ≠ "" ∧ 0 < a
    · rw [if_pos hc]
      refine ⟨ih.1, ?_⟩
      intro e he
      rcases List.mem_append.mp he with h1 | h2
      · exact ih.2 e h1
      · simp at h2
        subst h2
        exact ⟨hc.2, hc.1⟩
    · rw [if_neg hc]
      exact ih
  | stepClear hr ih =>
    constructor
    · intro e he
      cases he
    · intro e he
      cases he

theorem total_income_zero_iff {s : BudgetState} (h : GoodEntries s) :
    total_income s = 0 ↔ s.income_sources = [] := by
  constructor
  · intro h0
    by_contra hne
    have hpos : 0 < total_income s := by
      apply List.sum_pos
      · intro x hx
        rcases List.mem_map.mp hx with ⟨e, he, rfl⟩
        exact (h.1 e he).1
      · intro hmapnil
        exact hne (List.map_eq_nil_iff.mp hmapnil)
    exact absurd h0 (ne_of_gt hpos)
  · intro he
    simp [total_income, he]

theorem exampleFull_total_income : total_income exampleFull = 5000 := by
  simp [total_income, exampleFull]

theorem exampleFull_total_expenses : total_expenses exampleFull = 1900 := by
  simp [total_expenses, exampleFull]
  norm_num

theorem exampleFull_balance : remaining_balance exampleFull = 3100 := by
  rw [remaining_balance, exampleFull_total_income, exampleFull_total_expenses]
  norm_num

theorem exampleFull_savings : savings_budget exampleFull = 1000 := by
  rw [savings_budget, exampleFull_total_income]
  norm_num

theorem exampleOps_valid : ∀ op ∈ exampleOps, opValid op := by
  intro op hop
  simp only [exampleOps, List.mem_cons, List.not_mem_nil, or_false] at hop
  rcases hop with rfl | rfl | rfl
  · exact ⟨by decide, by norm_num⟩
  · exact ⟨by decide, by norm_num⟩
  · exact ⟨by decide, by norm_num⟩

/-- C1: for every sequence of successful addIncome and addExpense calls,
total_income equals the sum of the added income amounts and total_expenses
the sum of the added expense amounts, and both totals are 0 over an empty
collection. -/
theorem claim1_totals_of_ops (ops : List Op) (h : ∀ op ∈ ops, opValid op) :
    total_income (runOps initialState ops) = (opIncomeAmounts ops).sum ∧
    total_expenses (runOps initialState ops) = (opExpenseAmounts ops).sum ∧
    (∀ s : BudgetState, s.income_sources = [] → total_income s = 0) ∧
    (∀ s : BudgetState, s.expenses = [] → total_expenses s = 0) := by
  obtain ⟨h1, h2⟩ := runOps_totals ops initialState h
  refine ⟨?_, ?_, ?_, ?_⟩
  · rw [h1]
    simp [total_income, initialState]
  · rw [h2]
    simp [total_expenses, initialState]
  · intro s hs
    simp [total_income, hs]
  · intro s hs
    simp [total_expenses, hs]

/-- Witness for C1 at the spec's example action sequence. -/
theorem claim1_witness :
    (∀ op ∈ exampleOps, opValid op) ∧
    total_income (runOps initialState exampleOps) = (opIncomeAmounts exampleOps).sum ∧
    total_expenses (runOps initialState exampleOps) = (opExpenseAmounts exampleOps).sum :=
  ⟨exampleOps_valid,
   (claim1_totals_of_ops exampleOps exampleOps_valid).1,
   (claim1_totals_of_ops exampleOps exampleOps_valid).2.1⟩

/-- C2: remaining_balance is exactly total_income minus total_expenses in
every state, and a reachable state with negative balance exists. -/
theorem claim2_remaining_balance :
    (∀ s : BudgetState, remaining_balance s = total_income s - total_expenses s) ∧
    (∃ s : BudgetState, Reachable s ∧ remaining_balance s < 0) := by
  constructor
  · intro s
    rfl
  · refine ⟨exampleDeficit, ?_, ?_⟩
    · exact Reachable.stepExpense _ _ _ _ (Reachable.stepIncome _ _ Reachable.init)
    · simp [exampleDeficit, remaining_balance, total_income, total_expenses,
        addIncome, addExpense, initialState]
      norm_num

/-- C3: both add handlers leave the store unchanged exactly when the name is
empty or the amount is not positive, and otherwise append exactly one entry
carrying the submitted field values. -/
theorem claim3_add_validation (s : BudgetState) (c n : String) (a : ℚ) (p : Priority) :
    ((n = "" ∨ a ≤ 0) → addIncome s n a = s ∧ addExpense s c n a p = s) ∧
    (n ≠ "" → 0 < a →
      addIncome s n a = ⟨s.income_sources ++ [⟨n, a⟩], s.expenses⟩ ∧
      addExpense s c n a p = ⟨s.income_sources, s.expenses ++ [⟨c, n, a, p⟩]⟩) := by
  constructor
  · intro hbad
    have hneg : ¬ (n ≠ "" ∧ 0 < a) := by
      rcases hbad with h1 | h2
      · intro hc
        exact hc.1 h1
      · intro hc
        exact absurd hc.2 (not_lt.mpr h2)
    constructor
    · unfold addIncome
      rw [if_neg hneg]
    · unfold addExpense
      rw [if_neg hneg]
  · intro h1 h2
    constructor
    · unfold addIncome
      rw [if_pos ⟨h1, h2⟩]
    · unfold addExpense
      rw [if_pos ⟨h1, h2⟩]

/-- Witness for C3: empty name rejected, zero amount rejected, a valid entry
appended with its field values. -/
theorem claim3_witness :
    (addIncome initialState "" 100 = initialState
      ∧ addExpense initialState "Other" "" 100 Priority.low = initialState) ∧
    (addIncome initialState "Bonus" 0 = initialState
      ∧ addExpense initialState "Other" "Bonus" 0 Priority.low = initialState) ∧
    (addIncome initialState "Salary" 5000
        = ⟨initialState.income_sources ++ [⟨"Salary", 5000⟩], initialState.expenses⟩
      ∧ addExpense initialState "Other" "Salary" 5000 Priority.low
        = ⟨initialState.income_sources,
            initialState.expenses ++ [⟨"Other", "Salary", 5000, Priority.low⟩]⟩) :=
  ⟨(claim3_add_validation initialState "Other" "" 100 Priority.low).1 (Or.inl rfl),
   (claim3_add_validation initialState "Other" "Bonus" 0 Priority.low).1 (Or.inr (le_refl 0)),
   (claim3_add_validation initialState "Other" "Salary" 5000 Priority.low).2
     (by decide) (by norm_num : (0 : ℚ) < 5000)⟩

/-- C4: with positive income the analysis yields exactly one of the three
tiers in order (deficit with the absolute shortfall, low savings below the
20 percent target, healthy otherwise), the three conditions being mutually
exclusive and exhaustive; with zero income no assessment is produced. -/
theorem claim4_health_tiers (s : BudgetState) :
    (total_income s = 0 → healthAssessment s = none) ∧
    (0 < total_income s →
      (remaining_balance s < 0 →
        healthAssessment s = some (Assessment.deficit |remaining_balance s|)) ∧
      (0 ≤ remaining_balance s → remaining_balance s < savings_budget s →
        healthAssessment s
          = some (Assessment.lowSavings (remaining_balance s) (savings_budget s))) ∧
      (savings_budget s ≤ remaining_balance s →
        healthAssessment s = some (Assessment.healthy (remaining_balance s))) ∧
      (remaining_balance s < 0
        ∨ (0 ≤ remaining_balance s ∧ remaining_balance s < savings_budget s)
        ∨ savings_budget s ≤ remaining_balance s) ∧
      ¬ (remaining_balance s < 0 ∧ 0 ≤ remaining_balance s) ∧
      ¬ (remaining_balance s < 0 ∧ savings_budget s ≤ remaining_balance s) ∧
      ¬ ((0 ≤ remaining_balance s ∧ remaining_balance s < savings_budget s)
          ∧ savings_budget s ≤ remaining_balance s)) := by
  constructor
  · intro h0
    simp [healthAssessment, h0]
  · intro hpos
    have hsav : 0 < savings_budget s := by
      unfold savings_budget
      exact mul_pos hpos (by norm_num)
    refine ⟨?_, ?_, ?_, ?_, ?_, ?_, ?_⟩
    · intro hneg
      unfold healthAssessment
      rw [if_pos hpos, if_pos hneg]
    · intro h0 hlt
      unfold healthAssessment
      rw [if_pos hpos, if_neg (not_lt.mpr h0), if_pos hlt]
    · intro hge
      have h0 : 0 ≤ remaining_balance s := le_of_lt (lt_of_lt_of_le hsav hge)
      unfold healthAssessment
      rw [if_pos hpos, if_neg (not_lt.mpr h0), if_neg (not_lt.mpr hge)]
    · rcases lt_or_le (remaining_balance s) 0 with h | h
      · exact Or.inl h
      · rcases lt_or_le (remaining_balance s) (savings_budget s) with h2 | h2
        · exact Or.inr (Or.inl ⟨h, h2⟩)
        · exact Or.inr (Or.inr h2)
    · rintro ⟨h1, h2⟩
      exact absurd h1 (not_lt.mpr h2)
    · rintro ⟨h1, h2⟩
      exact absurd h1 (not_lt.mpr (le_of_lt (lt_of_lt_of_le hsav h2)))
    · rintro ⟨⟨h0, h1⟩, h2⟩
      exact absurd h1 (not_lt.mpr h2)

/-- Witness for C4 at the spec's example store, which is healthy. -/
theorem claim4_witness :
    0 < total_income exampleFull ∧ savings_budget exampleFull ≤ remaining_balance exampleFull ∧
    healthAssessment exampleFull = some (Assessment.healthy (remaining_balance exampleFull)) :=
  ⟨by rw [exampleFull_total_income]; norm_num,
   by rw [exampleFull_savings, exampleFull_balance]; norm_num,
   ((claim4_health_tiers exampleFull).2 (by rw [exampleFull_total_income]; norm_num)).2.2.1
     (by rw [exampleFull_savings, exampleFull_balance]; norm_num)⟩

/-- C5: with positive income the recommendations tab computes the 50/30/20
allocation of total income; with non-positive income no allocation is
computed and the add-income guidance is shown. -/
theorem claim5_rule502030 (s : BudgetState) :
    (0 < total_income s →
      budgetRule502030 s = some ⟨total_income s * (50 / 100),
        total_income s * (30 / 100), total_income s * (20 / 100)⟩) ∧
    (¬ 0 < total_income s → budgetRule502030 s = none ∧ addIncomePrompt s = true) := by
  constructor
  · intro hpos
    have h1 : needs_budget s = total_income s * (50 / 100) := by
      unfold needs_budget
      norm_num
    have h2 : wants_budget s = total_income s * (30 / 100) := by
      unfold wants_budget
      norm_num
    have h3 : savings_budget s = total_income s * (20 / 100) := by
      unfold savings_budget
      norm_num
    unfold budgetRule502030
    rw [if_pos hpos, h1, h2, h3]
  · intro hneg
    constructor
    · unfold budgetRule502030
      rw [if_neg hneg]
    · simp [addIncomePrompt, hneg]

/-- Witness for C5 at the spec's example store (allocation 2500, 1500, 1000). -/
theorem claim5_witness :
    0 < total_income exampleFull ∧
    budgetRule502030 exampleFull = some ⟨total_income exampleFull * (50 / 100),
      total_income exampleFull * (30 / 100), total_income exampleFull * (20 / 100)⟩ :=
  ⟨by rw [exampleFull_total_income]; norm_num,
   (claim5_rule502030 exampleFull).1 (by rw [exampleFull_total_income]; norm_num)⟩

/-- C6 counterexample: a reachable store with positive income and no
expenses; the ratio (which would be 0, hence at most 50) is not displayed at
all, because line 295 additionally requires total_expenses > 0. -/
theorem claim6_counterexample :
    Reachable exampleIncomeOnly ∧ 0 < total_income exampleIncomeOnly ∧
    expensePercent exampleIncomeOnly ≤ 50 ∧ expenseRatioDisplay exampleIncomeOnly = none := by
  have hstate : exampleIncomeOnly = ⟨[⟨"Salary", 100⟩], []⟩ := by
    simp [exampleIncomeOnly, addIncome, initialState]
  have hTI : total_income exampleIncomeOnly = 100 := by
    rw [hstate]
    simp [total_income]
  have hTE : total_expenses exampleIncomeOnly = 0 := by
    rw [hstate]
    simp [total_expenses]
  refine ⟨Reachable.stepIncome _ _ Reachable.init, by rw [hTI]; norm_num, ?_, ?_⟩
  · rw [expensePercent, hTI, hTE]
    norm_num
  · unfold expenseRatioDisplay
    rw [if_pos (show 0 < total_income exampleIncomeOnly by rw [hTI]; norm_num),
      if_neg (show ¬ 0 < total_expenses exampleIncomeOnly by rw [hTE]; norm_num)]

/-- C6 amended: the ratio (total_expenses / total_income * 100) and its
qualitative note (high above 80, healthy at 50 or below, none between) are
displayed exactly when both total_income and total_expenses are positive;
otherwise nothing is displayed, and with zero income the add-income
placeholder is shown instead. -/
theorem claim6_expense_percent (s : BudgetState) :
    (0 < total_income s → 0 < total_expenses s →
      expenseRatioDisplay s = some (expensePercent s, noteFor (expensePercent s))
        ∧ expensePercent s = total_expenses s / total_income s * 100) ∧
    (total_income s ≤ 0 ∨ total_expenses s ≤ 0 → expenseRatioDisplay s = none) ∧
    (total_income s = 0 → addIncomePrompt s = true) ∧
    (∀ r : ℚ, (80 < r → noteFor r = some SpendingNote.highSpending) ∧
      (r ≤ 50 → noteFor r = some SpendingNote.healthySpending) ∧
      (50 < r → r ≤ 80 → noteFor r = none)) := by
  refine ⟨?_, ?_, ?_, ?_⟩
  · intro h1 h2
    unfold expenseRatioDisplay
    rw [if_pos h1, if_pos h2]
    exact ⟨rfl, rfl⟩
  · intro h
    unfold expenseRatioDisplay
    rcases h with h | h
    · rw [if_neg (not_lt.mpr h)]
    · by_cases h1 : 0 < total_income s
      · rw [if_pos h1, if_neg (not_lt.mpr h)]
      · rw [if_neg h1]
  · intro h0
    simp [addIncomePrompt, h0]
  · intro r
    refine ⟨?_, ?_, ?_⟩
    · intro h
      unfold noteFor
      rw [if_pos h]
    · intro h
      unfold noteFor
      rw [if_neg (not_lt.mpr (le_trans h (by norm_num))), if_pos h]
    · intro h50 h80
      unfold noteFor
      rw [if_neg (not_lt.mpr h80), if_neg (not_le.mpr h50)]

/-- Witness for C6 at the spec's example store (both totals positive). -/
theorem claim6_witness :
    0 < total_income exampleFull ∧ 0 < total_expenses exampleFull ∧
    expenseRatioDisplay exampleFull
      = some (expensePercent exampleFull, noteFor (expensePercent exampleFull)) :=
  ⟨by rw [exampleFull_total_income]; norm_num,
   by rw [exampleFull_total_expenses]; norm_num,
   ((claim6_expense_percent exampleFull).1 (by rw [exampleFull_total_income]; norm_num)
     (by rw [exampleFull_total_expenses]; norm_num)).1⟩

/-- C7 counterexample: with a non-empty expense list whose largest amount has
the lowest priority, the tab1 text rows come out ordered by amount (Low
before Critical), not in the fixed order Critical, High, Medium, Low. -/
theorem claim7_counterexample :
    exampleLowBig ≠ [] ∧
    tab1PriorityRows exampleLowBig = [(Priority.low, 100), (Priority.critical, 50)] ∧
    ¬ rowsPriorityOrdered (tab1PriorityRows exampleLowBig) := by
  have h1 : priorityRows exampleLowBig = [(Priority.critical, 50), (Priority.low, 100)] := by
    simp [priorityRows, groupbyPriorityKeys, exampleLowBig, prioritySum]
  have h2 : tab1PriorityRows exampleLowBig
      = [(Priority.low, 100), (Priority.critical, 50)] := by
    rw [tab1PriorityRows, h1]
    norm_num [insertionSort, insertLe]
  refine ⟨by simp [exampleLowBig], h2, ?_⟩
  rw [h2]
  intro hch
  have hle := (List.chain'_cons.mp hch).1
  simp [priorityRank] at hle

/-- C7 amended: the tab2 bar chart always displays the priority groups in the
fixed order Critical, High, Medium, Low, while the tab1 text summary displays
them ordered by amount, descending. -/
theorem claim7_display_order (es : List ExpenseEntry) :
    rowsPriorityOrdered (tab2PriorityRows es) ∧ rowsAmountDescending (tab1PriorityRows es) := by
  constructor
  · have htot : ∀ a b : Priority × ℚ,
        decide (priorityRank a.1 ≤ priorityRank b.1) = true
          ∨ decide (priorityRank b.1 ≤ priorityRank a.1) = true := by
      intro a b
      rcases Nat.le_total (priorityRank a.1) (priorityRank b.1) with h | h
      · exact Or.inl (decide_eq_true h)
      · exact Or.inr (decide_eq_true h)
    have h := chain'_insertionSort
      (fun a b : Priority × ℚ => decide (priorityRank a.1 ≤ priorityRank b.1))
      htot (priorityRows es)
    exact h.imp fun a b hab => of_decide_eq_true hab
  · have htot : ∀ a b : Priority × ℚ,
        decide (b.2 ≤ a.2) = true ∨ decide (a.2 ≤ b.2) = true := by
      intro a b
      rcases le_total b.2 a.2 with h | h
      · exact Or.inl (decide_eq_true h)
      · exact Or.inr (decide_eq_true h)
    have h := chain'_insertionSort
      (fun a b : Priority × ℚ => decide (b.2 ≤ a.2)) htot (priorityRows es)
    exact h.imp fun a b hab => of_decide_eq_true hab

/-- C8: summing the groupby-category values over the categories present, and
the groupby-priority values over the priorities present, both reproduce
total_expenses (each grouping partitions the expense total). -/
theorem claim8_partition (s : BudgetState) :
    ((categoriesPresent s.expenses).map (categorySum s.expenses)).sum = total_expenses s ∧
    ((priorityRows s.expenses).map Prod.snd).sum = total_expenses s := by
  constructor
  · have hnd : (categoriesPresent s.expenses).Nodup := List.nodup_dedup _
    have hcov : ∀ e ∈ s.expenses, e.category ∈ categoriesPresent s.expenses := by
      intro e he
      exact List.mem_dedup.mpr (List.mem_map_of_mem ExpenseEntry.category he)
    exact sum_map_key_partition ExpenseEntry.category ExpenseEntry.amount
      (categoriesPresent s.expenses) hnd s.expenses hcov
  · have hnd : groupbyPriorityKeys.Nodup := by decide
    have hcov : ∀ e ∈ s.expenses, e.priority ∈ groupbyPriorityKeys := by
      intro e he
      cases h : e.priority <;> simp [groupbyPriorityKeys]
    have hpart := sum_map_key_partition ExpenseEntry.priority ExpenseEntry.amount
      groupbyPriorityKeys hnd s.expenses hcov
    have hfil := sum_map_filter_of_zero
      (fun p => s.expenses.any fun e => decide (e.priority = p))
      (prioritySum s.expenses) groupbyPriorityKeys
      (fun p _ h => prioritySum_eq_zero_of_absent s.expenses p h)
    have hrows : (priorityRows s.expenses).map Prod.snd
        = (groupbyPriorityKeys.filter fun p => s.expenses.any fun e => decide (e.priority = p)).map
            (prioritySum s.expenses) := by
      unfold priorityRows
      rw [List.map_map]
      rfl
    rw [hrows, hfil]
    exact hpart

/-- C9: Clear All Data always yields the empty store in one step, and every
aggregate evaluated afterwards is zero or empty. -/
theorem claim9_clearAll (s : BudgetState) :
    clearAll s = initialState ∧
    (clearAll s).income_sources = [] ∧ (clearAll s).expenses = [] ∧
    total_income (clearAll s) = 0 ∧ total_expenses (clearAll s) = 0 ∧
    remaining_balance (clearAll s) = 0 ∧
    priorityRows (clearAll s).expenses = [] ∧
    categoriesPresent (clearAll s).expenses = [] ∧
    healthAssessment (clearAll s) = none ∧
    budgetRule502030 (clearAll s) = none := by
  have hTI : total_income (clearAll s) = 0 := rfl
  refine ⟨rfl, rfl, rfl, hTI, rfl, ?_, ?_, ?_, ?_, ?_⟩
  · rw [remaining_balance, hTI, show total_expenses (clearAll s) = 0 from rfl]
    norm_num
  · rfl
  · rfl
  · unfold healthAssessment
    rw [if_neg (by rw [hTI]; exact lt_irrefl 0)]
  · unfold budgetRule502030
    rw [if_neg (by rw [hTI]; exact lt_irrefl 0)]

/-- C10: in every reachable session state, every stored entry has a strictly
positive amount and a non-empty name, and total_income vanishes exactly when
the income collection is empty. -/
theorem claim10_invariant (s : BudgetState) (h : Reachable s) :
    GoodEntries s ∧ (total_income s = 0 ↔ s.income_sources = []) := by
  have hg := good_of_reachable h
  exact ⟨hg, total_income_zero_iff hg⟩

/-- Witness for C10 at the initial state. -/
theorem claim10_witness :
    GoodEntries initialState
      ∧ (total_income initialState = 0 ↔ initialState.income_sources = []) :=
  claim10_invariant initialState Reachable.init

end Budget
